import Mathlib

/-!
Verification development for the ReceiptAI batch-processing pipeline.

Shallow embedding of:
  * the queue data model and queue operations of
    src/context/ProcessingContext.tsx (QueueItem, updateItemStatus,
    removeFile, the startProcessing guard / try-catch-finally skeleton,
    and an interleaving small-step semantics of the slice loop);
  * the retry executor withRetry of src/services/llmService.ts
    (src/unnamed/part_010), including its inlined retryability
    classification over error message substrings;
  * the per-item processing pipeline (validation gate, semantic-error
    check, persistence call) of startProcessing;
  * the error path of extractReceiptData of src/services/llmService.ts.

Machine integers do not occur in the modelled code paths (all counters
are small JS numbers used as naturals), so Nat is used throughout.
-/

namespace ReceiptAI

/-! ## Queue data model (ProcessingContext.tsx) -/

/-- QueueItem.status : one of pending, processing, completed, error. -/
inductive Status where
  | pending
  | processing
  | completed
  | error
deriving DecidableEq, Repr

/-- A queue item: id (uuid, modelled as Nat), file handle (abstract,
modelled as Nat), lifecycle status and optional error message. -/
structure QueueItem where
  id : Nat
  file : Nat
  status : Status
  error : Option String
deriving DecidableEq, Repr

/-- updateItemStatus: map over the queue, replacing status and error of
the item whose id matches.  The source spreads the optional error
parameter unconditionally, so a matched item always has its error field
replaced (cleared when the new status carries no message). -/
def updateItemStatus (q : List QueueItem) (id : Nat) (st : Status)
    (err : Option String) : List QueueItem :=
  q.map fun it => if it.id = id then { it with status := st, error := err } else it

/-- removeFile: filter the queue, dropping every item whose id matches.
The source performs no status check. -/
def removeFile (q : List QueueItem) (id : Nat) : List QueueItem :=
  q.filter fun it => it.id ≠ id

/-- addFiles: append freshly created pending items to the queue. -/
def addFiles (q : List QueueItem) (newItems : List QueueItem) : List QueueItem :=
  q ++ newItems

/-- Count of items currently in status processing. -/
def processingCount (q : List QueueItem) : Nat :=
  (q.filter fun it => it.status = Status.processing).length

/-- BATCH_SIZE = settings.concurrentApiCalls || 10 (JS falsy fallback:
a configured 0 yields 10). -/
def batchSizeOf (concurrentApiCalls : Nat) : Nat :=
  if concurrentApiCalls = 0 then 10 else concurrentApiCalls

/-! ## Retry executor (withRetry, llmService) -/

/-- Substring test on strings, used by the retryability classification
(lastError.message.includes(pat)). -/
def containsSub (s pat : String) : Bool :=
  decide (pat.data <:+: s.data)

/-- The inlined retryability classification of withRetry: an error is
retryable iff its message contains one of the transient-network or
server-side/rate-limit markers. -/
def isRetryable (msg : String) : Bool :=
  containsSub msg "fetch" || containsSub msg "network" ||
  containsSub msg "timeout" || containsSub msg "500" ||
  containsSub msg "502" || containsSub msg "503" ||
  containsSub msg "504" || containsSub msg "429" ||
  containsSub msg "ECONNRESET" || containsSub msg "ETIMEDOUT"

/-- RetryOptions with the source defaults. -/
structure RetryOptions where
  maxRetries : Nat := 3
  initialDelay : Nat := 1000
  maxDelay : Nat := 10000
  backoffMultiplier : Nat := 2
deriving DecidableEq, Repr

/-- Observable outcome of a withRetry execution: the final result, the
number of invocations of the wrapped operation, and the list of sleep
durations actually performed (in order). -/
structure RetryResult (A : Type) where
  result : Except String A
  calls : Nat
  sleeps : List Nat
deriving Repr

/-- The body of the withRetry for-loop.  remaining counts the loop
iterations still allowed after the current one (maxRetries - attempt);
attempt is the current 0-based attempt index; delay is the current
backoff delay.  On attempt > 0 the loop first sleeps for delay, then
invokes the operation; a failure is rethrown when it is not retryable
or the attempt budget is exhausted, otherwise the delay is updated to
min (delay * backoffMultiplier) maxDelay and the loop continues.  The
operation is modelled as a function from the attempt index to its
outcome on that invocation. -/
def withRetryAux {A : Type} (fn : Nat → Except String A)
    (mult maxDelay : Nat) :
    Nat → Nat → Nat → RetryResult A
  | 0, attempt, delay =>
    let sl : List Nat := if attempt = 0 then [] else [delay]
    match fn attempt with
    | .ok v => ⟨.ok v, 1, sl⟩
    | .error e => ⟨.error e, 1, sl⟩
  | remaining + 1, attempt, delay =>
    let sl : List Nat := if attempt = 0 then [] else [delay]
    match fn attempt with
    | .ok v => ⟨.ok v, 1, sl⟩
    | .error e =>
      if isRetryable e then
        let next := withRetryAux fn mult maxDelay remaining (attempt + 1)
          (min (delay * mult) maxDelay)
        ⟨next.result, next.calls + 1, sl ++ next.sleeps⟩
      else
        ⟨.error e, 1, sl⟩

/-- withRetry: run the loop from attempt 0 with the configured options. -/
def withRetry {A : Type} (fn : Nat → Except String A)
    (opts : RetryOptions) : RetryResult A :=
  withRetryAux fn opts.backoffMultiplier opts.maxDelay opts.maxRetries 0
    opts.initialDelay

/-! ## Extracted records (types.ts ReceiptData) -/

/-- ReceiptData: the typed envelope (id, createdAt, status, rawImage,
error) plus the open map of schema-driven fields, modelled as an
association list of string pairs.  JS truthiness of the envelope
fields: a string is falsy iff empty, a number is falsy iff zero. -/
structure ReceiptData where
  id : String
  createdAt : Nat
  status : String
  rawImage : Option String
  error : Option String
  fields : List (String × String)
deriving DecidableEq, Repr

/-! ## Per-item processing (startProcessing batch.map body) -/

/-- The missing-field list built by the validation gate, in source
order: id, status, createdAt.  A field is missing iff it is JS-falsy
(empty string, zero timestamp). -/
def missingFields (data : ReceiptData) : List String :=
  (if data.id = "" then ["id"] else []) ++
  (if data.status = "" then ["status"] else []) ++
  (if data.createdAt = 0 then ["createdAt"] else [])

/-- JS a || b on an optional string: the default is used when the
value is absent or empty (falsy). -/
def jsOr (o : Option String) (d : String) : String :=
  match o with
  | some s => if s = "" then d else s
  | none => d

/-- Observable outcome of processing one queue item: its terminal
status and error message, whether addReceipt was invoked, whether
lastUpdated was touched, and whether the critical-failure catch branch
ran. -/
structure ItemOutcome where
  status : Status
  error : Option String
  saveCalled : Bool
  lastUpdatedTouched : Bool
  criticalCatch : Bool
deriving DecidableEq, Repr

/-- The per-item pipeline of startProcessing: receive the extraction
result (an exception from extractReceiptData lands in the critical
catch), run the validation gate, then the semantic-error check, then
persist via addReceipt; a persistence failure is rethrown into the
critical catch, which marks the item error with the message.  The
persistence call is modelled by its outcome save, consulted only on
the branch that reaches it (saveCalled records whether it was). -/
def processItem (extraction : Except String ReceiptData)
    (save : Except String Unit) : ItemOutcome :=
  match extraction with
  | .error e => ⟨Status.error, some e, false, false, true⟩
  | .ok data =>
    let missing := missingFields data
    if missing.isEmpty = false then
      ⟨Status.error,
       some ("Missing required fields: " ++ String.intercalate ", " missing),
       false, false, false⟩
    else if data.status = "error" then
      ⟨Status.error, some (jsOr data.error "Extraction returned error status"),
       false, false, false⟩
    else
      match save with
      | .ok _ => ⟨Status.completed, none, true, true, false⟩
      | .error e => ⟨Status.error, some e, true, false, true⟩

/-! ## extractReceiptData error path (llmService) -/

/-- Environment of one extractReceiptData call: outcomes of its
fallible steps.  settings is the getSettings() read performed before
the outer try (it can throw: JSON.parse of corrupt stored settings,
localStorage.setItem on quota exhaustion, storage access denial);
upload is the uploadImageToCloud outcome (its own internal
cloud/compress/base64 fallbacks already applied); objectUrl is the
URL.createObjectURL fallback used when upload rejects; toBase64 is
the fileToBase64 outcome; llm is the whole provider branch (API key
check, retry-wrapped network call, response extraction, JSON parse)
yielding the parsed field map or the thrown message; errorImage is
the compressed image produced on the catch path (total: falls back to
the empty string). -/
structure ExtractEnv where
  settings : Except String Unit
  upload : Except String String
  objectUrl : String
  toBase64 : Except String String
  llm : Except String (List (String × String))
  errorImage : String

/-- Field lookup in the parsed extraction output. -/
def lookupField (fs : List (String × String)) (k : String) : Option String :=
  (fs.find? fun p => p.1 = k).map fun p => p.2

/-- The final-result merge: spread of defaultResult, then
status draft, then the extracted fields, then id, createdAt and
rawImage re-pinned to the locally generated values.  Hence status is
the extracted status when present (else draft) and error is the
extracted error when present. -/
def mergeFinal (baseId : String) (now : Nat) (url : String)
    (fs : List (String × String)) : ReceiptData :=
  { id := baseId, createdAt := now,
    status := (lookupField fs "status").getD "draft",
    rawImage := some url,
    error := lookupField fs "error",
    fields := fs }

/-- The body of the outer try of extractReceiptData: the inner upload
try-catch (falling back to the object url), then the awaited base64
conversion, then the provider branch, then the empty-payload check
and the final merge; a failure of an awaited step aborts the body with
that failure. -/
def extractBody (baseId : String) (now : Nat) (env : ExtractEnv) :
    Except String ReceiptData :=
  let imageUrl := match env.upload with
    | .ok u => u
    | .error _ => env.objectUrl
  match env.toBase64 with
  | .error m => .error m
  | .ok _ =>
    match env.llm with
    | .error m => .error m
    | .ok extracted =>
      if extracted.isEmpty then
        .ok { id := baseId, createdAt := now, status := "error",
              rawImage := some imageUrl,
              error := some "No data extracted from receipt", fields := [] }
      else
        .ok (mergeFinal baseId now imageUrl extracted)

/-- extractReceiptData: the getSettings() read runs before the outer
try, so an exception there escapes to the caller (the scheduler).
Once it returns, the outer try-catch converts every exception from
the body into a delivered record carrying the freshly generated uuid
(baseId), the timestamp, status error and the exception message, so
every path inside the try yields an ok result. -/
def extractReceiptData (baseId : String) (now : Nat) (env : ExtractEnv) :
    Except String ReceiptData :=
  match env.settings with
  | .error m => .error m
  | .ok _ =>
    .ok (match extractBody baseId now env with
      | .ok r => r
      | .error msg =>
        { id := baseId, createdAt := now, status := "error",
          rawImage := some env.errorImage, error := some msg, fields := [] })

/-! ## startProcessing guard and try-catch-finally skeleton -/

/-- The provider state observable through the context: queue, active
flag, log lines, lastUpdated and a counter of extraction calls issued. -/
structure RunState where
  queue : List QueueItem
  isProcessing : Bool
  logs : List String
  lastUpdated : Nat
  extractionCalls : Nat
deriving DecidableEq, Repr

/-- The startProcessing skeleton: the re-entrancy guard, then
activate and clear the log, then the settings read - getSettings()
and the BATCH_SIZE derivation run between activation and the try, so
an exception there escapes the operation with the flag left true -
then the try body (the batch loop over the read batch size,
abstracted as an arbitrary state transformer returning the state
reached together with an aborted flag - true when an exception
escaped the loop), then the catch (log the interruption line) and the
finally (deactivate and log the finished line).  The second component
of the result is the exception escaping the whole operation, none
when it returns normally.  Quantifying theorems over loop covers
every behaviour of the concrete batch loop, including an exception
escaping it. -/
def startProcessing (settingsRead : Except String Nat)
    (loop : Nat → RunState → RunState × Bool)
    (s : RunState) : RunState × Option String :=
  if s.isProcessing then (s, none)
  else
    let s1 := { s with isProcessing := true, logs := [] }
    match settingsRead with
    | .error m => (s1, some m)
    | .ok batchSize =>
      let p := loop batchSize s1
      let s2 :=
        if p.2 then
          { p.1 with logs := p.1.logs ++ ["❌ Batch processing interrupted by system error."] }
        else p.1
      ({ s2 with isProcessing := false, logs := s2.logs ++ ["Processing queue finished."] }, none)

/-! ## Interleaving semantics of the batch loop (slices, fan-out join) -/

/-- The pending re-read: items with status pending, in queue order. -/
def pendingOf (q : List QueueItem) : List QueueItem :=
  q.filter fun it => it.status = Status.pending

/-- Ids of the current slice: the first batchSize pending items. -/
def sliceIds (q : List QueueItem) (batchSize : Nat) : List Nat :=
  ((pendingOf q).take batchSize).map QueueItem.id

/-- A configuration of the running batch loop: the live queue, the
slice members not yet started, the slice members started but not yet
settled, and the set of ids ever issued (uuids are never reused). -/
structure Config where
  queue : List QueueItem
  toStart : List Nat
  inflight : List Nat
  used : List Nat
deriving DecidableEq, Repr

/-- Atomic steps of the batch loop interleaved with caller actions.
start and finish are the two status writes of one slice member task
(mark processing, then mark terminal); add and remove are the caller
operations addFiles and removeFile, allowed at any time; newRound is
the loop head: it fires only when the previous slice has fully
settled (the Promise.all join) and re-derives the slice from the live
pending set. -/
inductive Step (batchSize : Nat) : Config → Config → Prop
  | start (c : Config) (i : Nat) (h : i ∈ c.toStart) :
      Step batchSize c
        ⟨updateItemStatus c.queue i Status.processing none,
         c.toStart.erase i, i :: c.inflight, c.used⟩
  | finish (c : Config) (i : Nat) (st : Status) (e : Option String)
      (h : i ∈ c.inflight)
      (ht : st = Status.completed ∨ st = Status.error) :
      Step batchSize c
        ⟨updateItemStatus c.queue i st e,
         c.toStart, c.inflight.erase i, c.used⟩
  | add (c : Config) (newItems : List QueueItem)
      (hp : ∀ it ∈ newItems, it.status = Status.pending)
      (hn : (newItems.map QueueItem.id).Nodup)
      (hf : ∀ it ∈ newItems, it.id ∉ c.used) :
      Step batchSize c
        ⟨addFiles c.queue newItems, c.toStart, c.inflight,
         c.used ++ newItems.map QueueItem.id⟩
  | remove (c : Config) (i : Nat) :
      Step batchSize c
        ⟨removeFile c.queue i, c.toStart, c.inflight, c.used⟩
  | newRound (c : Config) (h1 : c.toStart = []) (h2 : c.inflight = []) :
      Step batchSize c
        ⟨c.queue, sliceIds c.queue batchSize, [], c.used⟩

/-- Reachability in the batch loop semantics. -/
def Reach (batchSize : Nat) : Config → Config → Prop :=
  Relation.ReflTransGen (Step batchSize)

/-- Well-formedness of a configuration, preserved by every step:
ids are unique; bookkeeping lists are duplicate-free and disjoint;
the slice occupies at most batchSize slots; an item is processing iff
its id is in flight; a slice member not yet started is still pending;
every id in play has been issued. -/
def WF (batchSize : Nat) (c : Config) : Prop :=
  (c.queue.map QueueItem.id).Nodup ∧
  c.toStart.Nodup ∧
  c.inflight.Nodup ∧
  (∀ i ∈ c.toStart, i ∉ c.inflight) ∧
  c.toStart.length + c.inflight.length ≤ batchSize ∧
  (∀ it ∈ c.queue, it.status = Status.processing → it.id ∈ c.inflight) ∧
  (∀ it ∈ c.queue, it.id ∈ c.toStart → it.status = Status.pending) ∧
  (∀ it ∈ c.queue, it.id ∈ c.inflight → it.status = Status.processing) ∧
  (∀ i ∈ c.toStart, i ∈ c.used) ∧
  (∀ i ∈ c.inflight, i ∈ c.used) ∧
  (∀ it ∈ c.queue, it.id ∈ c.used)

instance (batchSize : Nat) (c : Config) : Decidable (WF batchSize c) := by
  unfold WF
  infer_instance

/-! ## Retry executor: theorems -/

/-- When every attempt fails with a retryable error, the loop performs
all remaining attempts and ends with the outcome of the last one. -/
theorem withRetryAux_allFail {A : Type} (fn : Nat → Except String A)
    (mult maxDelay : Nat)
    (hfail : ∀ k, ∃ e, fn k = .error e ∧ isRetryable e = true) :
    ∀ r a d, (withRetryAux fn mult maxDelay r a d).calls = r + 1 ∧
      (withRetryAux fn mult maxDelay r a d).result = fn (a + r) := by
  intro r
  induction r with
  | zero =>
    intro a d
    obtain ⟨e, he, _⟩ := hfail a
    simp [withRetryAux, he]
  | succ r ih =>
    intro a d
    obtain ⟨e, he, hr⟩ := hfail a
    have hrec := ih (a + 1) (min (d * mult) maxDelay)
    simp only [withRetryAux, he, hr, if_true]
    refine ⟨by omega, ?_⟩
    rw [hrec.2]
    congr 1
    omega

/-- C3: for an operation that raises a retryable error on every
attempt, withRetry with maxRetries = n invokes the operation exactly
n + 1 times and propagates the last error unchanged (the final result
coincides with the outcome of the last invocation). -/
theorem retry_bound_all_retryable {A : Type} (fn : Nat → Except String A)
    (opts : RetryOptions)
    (hfail : ∀ k, ∃ e, fn k = .error e ∧ isRetryable e = true) :
    (withRetry fn opts).calls = opts.maxRetries + 1 ∧
    (withRetry fn opts).result = fn opts.maxRetries := by
  have h := withRetryAux_allFail fn opts.backoffMultiplier opts.maxDelay hfail
    opts.maxRetries 0 opts.initialDelay
  simpa [withRetry] using h

/-- Witness for C3: the constant timeout failure with the default
options is invoked 3 + 1 times and the timeout error is the final
result. -/
theorem retry_bound_all_retryable_witness :
    (withRetry (fun _ => (Except.error "timeout" : Except String Unit)) {}).calls = 3 + 1 ∧
    (withRetry (fun _ => (Except.error "timeout" : Except String Unit)) {}).result =
      Except.error "timeout" :=
  retry_bound_all_retryable (fun _ => (Except.error "timeout" : Except String Unit)) {}
    (fun _ => ⟨"timeout", rfl, by decide⟩)

/-- Every sleep performed from attempt a + 1 onwards starts with the
incoming delay, stays at most maxDelay, and consecutive sleeps are
non-decreasing, strictly increasing while the previous sleep is
positive and below the maxDelay cap (for a multiplier of at least 2). -/
theorem withRetryAux_sleeps {A : Type} (fn : Nat → Except String A)
    (mult maxDelay : Nat) (hm : 1 ≤ mult) :
    ∀ r a d, d ≤ maxDelay →
      (withRetryAux fn mult maxDelay r (a + 1) d).sleeps.head? = some d ∧
      (∀ x ∈ (withRetryAux fn mult maxDelay r (a + 1) d).sleeps, x ≤ maxDelay) ∧
      List.Chain'
        (fun x y => x ≤ y ∧ (2 ≤ mult → 0 < x → x < maxDelay → x < y))
        (withRetryAux fn mult maxDelay r (a + 1) d).sleeps := by
  intro r
  induction r with
  | zero =>
    intro a d hd
    cases hfa : fn (a + 1) <;> simp [withRetryAux, hfa, hd]
  | succ r ih =>
    intro a d hd
    have hd' : min (d * mult) maxDelay ≤ maxDelay := Nat.min_le_right _ _
    have hrec := ih (a + 1) (min (d * mult) maxDelay) hd'
    cases hfa : fn (a + 1) with
    | error e =>
      by_cases hre : isRetryable e
      · have hle : d ≤ min (d * mult) maxDelay := by
          refine Nat.le_min.mpr ⟨?_, hd⟩
          calc d = d * 1 := (Nat.mul_one d).symm
            _ ≤ d * mult := Nat.mul_le_mul_left d hm
        have hlt : 2 ≤ mult → 0 < d → d < maxDelay →
            d < min (d * mult) maxDelay := by
          intro h2 h0 hcap
          have h2' : 2 * d ≤ mult * d := Nat.mul_le_mul_right d h2
          have hdd : d < d * mult := by
            have hlt' : d < mult * d := Nat.lt_of_lt_of_le (by omega) h2'
            calc d < mult * d := hlt'
              _ = d * mult := Nat.mul_comm mult d
          exact Nat.lt_min.mpr ⟨hdd, hcap⟩
        have hhd := hrec.1
        have hbd := hrec.2.1
        have hch := hrec.2.2
        refine ⟨?_, ?_, ?_⟩
        · simp [withRetryAux, hfa, hre]
        · intro x hx
          have hx' : x = d ∨ x ∈ (withRetryAux fn mult maxDelay r (a + 1 + 1)
              (min (d * mult) maxDelay)).sleeps := by
            simpa [withRetryAux, hfa, hre] using hx
          rcases hx' with rfl | h
          · exact hd
          · exact hbd x h
        · have hcons : List.Chain'
              (fun x y => x ≤ y ∧ (2 ≤ mult → 0 < x → x < maxDelay → x < y))
              (d :: (withRetryAux fn mult maxDelay r (a + 1 + 1)
                (min (d * mult) maxDelay)).sleeps) := by
            rw [List.chain'_cons']
            refine ⟨?_, hch⟩
            intro y hy
            rw [hhd] at hy
            have hyd : min (d * mult) maxDelay = y := by simpa using hy
            subst hyd
            exact ⟨hle, hlt⟩
          simpa [withRetryAux, hfa, hre] using hcons
      · simp [withRetryAux, hfa, hre, hd]
    | ok v =>
      simp [withRetryAux, hfa, hd]

/-- C7 counterexample: with maxRetries = 5 and the default delays, the
performed sleeps are 2000, 4000, 8000, 10000, 10000 - the last retry
sleeps exactly as long as the one before it (the maxDelay clamp), so
the sleeps are not strictly increasing. -/
theorem retry_backoff_counterexample :
    (withRetry (fun _ => (Except.error "ETIMEDOUT" : Except String Unit))
      { maxRetries := 5 }).sleeps = [2000, 4000, 8000, 10000, 10000] ∧
    ¬ List.Chain' (fun x y => x < y)
      (withRetry (fun _ => (Except.error "ETIMEDOUT" : Except String Unit))
        { maxRetries := 5 }).sleeps := by
  have hs : (withRetry (fun _ => (Except.error "ETIMEDOUT" : Except String Unit))
      { maxRetries := 5 }).sleeps = [2000, 4000, 8000, 10000, 10000] := by decide
  refine ⟨hs, ?_⟩
  rw [hs]
  intro h
  simp [List.chain'_cons] at h

/-- C7 amended: in every retry sequence produced by withRetry with a
backoff multiplier of at least 1, every sleep is bounded above by
maxDelay and consecutive sleeps are non-decreasing; a sleep is
strictly longer than its predecessor whenever the multiplier is at
least 2 and the predecessor is positive and still below the maxDelay
cap (once the cap is reached the sleeps stay constant at maxDelay). -/
theorem retry_backoff_monotone {A : Type} (fn : Nat → Except String A)
    (opts : RetryOptions) (hm : 1 ≤ opts.backoffMultiplier) :
    (∀ x ∈ (withRetry fn opts).sleeps, x ≤ opts.maxDelay) ∧
    List.Chain'
      (fun x y => x ≤ y ∧
        (2 ≤ opts.backoffMultiplier → 0 < x → x < opts.maxDelay → x < y))
      (withRetry fn opts).sleeps := by
  unfold withRetry
  cases hr : opts.maxRetries with
  | zero =>
    cases hfa : fn 0 <;> simp [withRetryAux, hfa]
  | succ r =>
    cases hfa : fn 0 with
    | error e =>
      by_cases hre : isRetryable e
      · have h := withRetryAux_sleeps fn opts.backoffMultiplier opts.maxDelay hm
          r 0 (min (opts.initialDelay * opts.backoffMultiplier) opts.maxDelay)
          (Nat.min_le_right _ _)
        simp only [withRetryAux, hfa, hre, if_true]
        refine ⟨?_, ?_⟩
        · intro x hx
          exact h.2.1 x (by simpa using hx)
        · simpa using h.2.2
      · simp [withRetryAux, hfa, hre]
    | ok v =>
      simp [withRetryAux, hfa]

/-- Witness for the amended C7: with the all-timeout operation and
maxRetries = 5, the first sleep (2000) is within the bound and the
whole sleep sequence satisfies the non-decreasing chain. -/
theorem retry_backoff_monotone_witness :
    (2000 : Nat) ≤ 10000 ∧
    List.Chain'
      (fun x y => x ≤ y ∧ (2 ≤ (2 : Nat) → 0 < x → x < 10000 → x < y))
      (withRetry (fun _ => (Except.error "ETIMEDOUT" : Except String Unit))
        { maxRetries := 5 }).sleeps :=
  ⟨(retry_backoff_monotone (fun _ => (Except.error "ETIMEDOUT" : Except String Unit))
      { maxRetries := 5 } (by decide)).1 2000 (by decide),
   (retry_backoff_monotone (fun _ => (Except.error "ETIMEDOUT" : Except String Unit))
      { maxRetries := 5 } (by decide)).2⟩

/-! ## Per-item pipeline: theorems -/

/-- With a delivered extraction result and a successful persistence
outcome, the critical-failure catch branch never runs. -/
theorem criticalCatch_ok_save (data : ReceiptData) (u : Unit) :
    (processItem (.ok data) (.ok u)).criticalCatch = false := by
  by_cases h1 : (missingFields data).isEmpty = false <;>
    by_cases h2 : data.status = "error" <;>
    simp [processItem, h1, h2]

/-- C4: if the extracted record is missing any of id, status or
createdAt, the item ends in error with the message listing exactly the
missing field names (in source order), and the persistence save is not
called; the missing list contains a name iff that field is missing. -/
theorem validation_gate (data : ReceiptData) (save : Except String Unit)
    (h : data.id = "" ∨ data.status = "" ∨ data.createdAt = 0) :
    (processItem (.ok data) save).status = Status.error ∧
    (processItem (.ok data) save).error =
      some ("Missing required fields: " ++
        String.intercalate ", " (missingFields data)) ∧
    (processItem (.ok data) save).saveCalled = false ∧
    ("id" ∈ missingFields data ↔ data.id = "") ∧
    ("status" ∈ missingFields data ↔ data.status = "") ∧
    ("createdAt" ∈ missingFields data ↔ data.createdAt = 0) := by
  by_cases h1 : data.id = "" <;> by_cases h2 : data.status = "" <;>
    by_cases h3 : data.createdAt = 0 <;>
    simp_all [processItem, missingFields]

/-- Witness for C4: a record with an empty id (status and createdAt
present) is marked error with the message naming exactly id, and the
save is not called. -/
theorem validation_gate_witness :
    (processItem (.ok ⟨"", 5, "draft", none, none, []⟩) (.ok ())).status = Status.error ∧
    (processItem (.ok ⟨"", 5, "draft", none, none, []⟩) (.ok ())).error =
      some "Missing required fields: id" ∧
    (processItem (.ok ⟨"", 5, "draft", none, none, []⟩) (.ok ())).saveCalled = false := by
  have h := validation_gate ⟨"", 5, "draft", none, none, []⟩ (.ok ()) (Or.inl rfl)
  refine ⟨h.1, ?_, h.2.2.1⟩
  rw [h.2.1]
  rfl

/-- C9: for a record that passes validation and is not a semantic
failure, a persistence failure marks the item error with the
persistence message, never completed, and leaves lastUpdated
untouched; conversely any save outcome that yields completed or a
lastUpdated touch must have been a successful save. -/
theorem persistence_failure_not_completed (data : ReceiptData) (e : String)
    (hm : missingFields data = []) (hs : data.status ≠ "error") :
    (processItem (.ok data) (.error e)).status = Status.error ∧
    (processItem (.ok data) (.error e)).error = some e ∧
    (processItem (.ok data) (.error e)).lastUpdatedTouched = false ∧
    (processItem (.ok data) (.error e)).status ≠ Status.completed ∧
    (∀ save : Except String Unit,
      (processItem (.ok data) save).status = Status.completed ∨
        (processItem (.ok data) save).lastUpdatedTouched = true →
      save = Except.ok ()) := by
  refine ⟨?_, ?_, ?_, ?_, ?_⟩
  · simp [processItem, hm, hs]
  · simp [processItem, hm, hs]
  · simp [processItem, hm, hs]
  · simp [processItem, hm, hs]
  · intro save hsv
    cases save with
    | ok u => rfl
    | error e' =>
      simp [processItem, hm, hs] at hsv

/-- Witness for C9: a valid draft record whose save fails with a quota
message ends in error carrying that message, and a successful save is
the only way to completed. -/
theorem persistence_failure_witness :
    (processItem (.ok ⟨"r1", 5, "draft", none, none, []⟩) (.error "quota exceeded")).status =
      Status.error ∧
    (processItem (.ok ⟨"r1", 5, "draft", none, none, []⟩) (.error "quota exceeded")).error =
      some "quota exceeded" ∧
    (processItem (.ok ⟨"r1", 5, "draft", none, none, []⟩) (.error "quota exceeded")).lastUpdatedTouched =
      false :=
  have h := persistence_failure_not_completed ⟨"r1", 5, "draft", none, none, []⟩
    "quota exceeded" (by decide) (by decide)
  ⟨h.1, h.2.1, h.2.2.1⟩

/-- C10 counterexample: when the settings read sitting before the
outer try throws, extractReceiptData rejects to the scheduler with
that exception - no record, no freshly generated id - and the
scheduler enters its critical-failure catch even though the
persistence save succeeds, so extraction is not total on its error
path and the critical catch is reachable other than via a save
failure. -/
theorem extraction_total_counterexample :
    extractReceiptData "u1" 5
      ⟨.error "SyntaxError: Unexpected token", .ok "url", "obj", .ok "b64",
        .ok [("merchantName", "A")], "img"⟩ =
      .error "SyntaxError: Unexpected token" ∧
    (processItem
      (extractReceiptData "u1" 5
        ⟨.error "SyntaxError: Unexpected token", .ok "url", "obj", .ok "b64",
          .ok [("merchantName", "A")], "img"⟩)
      (.ok ())).criticalCatch = true := by
  constructor
  · rfl
  · rfl

/-- C10 amended: the settings read before the outer try is the one way
extractReceiptData rejects to the scheduler; once it returns,
extractReceiptData is total on its error path: it delivers a record,
and whatever internal step fails (base64 conversion, the provider call
chain including exhausted retries and parse failures, or an empty
parsed payload) the delivered record carries the freshly generated
uuid, the timestamp, status error and an error message; consequently,
when the settings read succeeds, the critical-failure catch of the
scheduler can only be entered through a persistence failure. -/
theorem extraction_error_path (baseId : String) (now : Nat)
    (env : ExtractEnv) (save : Except String Unit)
    (hset : env.settings = .ok ()) :
    (∃ r, extractReceiptData baseId now env = .ok r) ∧
    (∀ r, extractReceiptData baseId now env = .ok r →
      ((((∃ m, env.toBase64 = .error m) ∨ (∃ m, env.llm = .error m) ∨
          env.llm = .ok []) →
        r.status = "error" ∧ r.id = baseId ∧ r.createdAt = now ∧
        r.error.isSome = true) ∧
       ((processItem (.ok r) save).criticalCatch = true →
         ∃ e, save = .error e))) := by
  constructor
  · unfold extractReceiptData
    rw [hset]
    exact ⟨_, rfl⟩
  · intro r hr
    constructor
    · intro h
      unfold extractReceiptData at hr
      rw [hset] at hr
      have hr' : (match extractBody baseId now env with
          | .ok r0 => r0
          | .error msg =>
            { id := baseId, createdAt := now, status := "error",
              rawImage := some env.errorImage, error := some msg,
              fields := [] }) = r := by
        injection hr
      rw [← hr']
      cases h64 : env.toBase64 with
      | error m => simp [extractBody, h64]
      | ok v =>
        cases hllm : env.llm with
        | error m => simp [extractBody, h64, hllm]
        | ok fs =>
          rcases h with ⟨m, hm⟩ | ⟨m, hm⟩ | hm
          · rw [h64] at hm
            exact absurd hm (by simp)
          · rw [hllm] at hm
            exact absurd hm (by simp)
          · rw [hllm] at hm
            cases hm
            simp [extractBody, h64, hllm]
    · intro h
      cases hsv : save with
      | error e => exact ⟨e, rfl⟩
      | ok u =>
        rw [hsv] at h
        rw [criticalCatch_ok_save] at h
        cases h

/-- Witness for the amended C10: with a successful settings read, a
provider failure still yields a delivered error record (first
application), and a critical catch with a delivered extraction is
indeed a persistence failure (second application, at a valid record
with a failing save). -/
theorem extraction_error_path_witness :
    (∃ r, extractReceiptData "u1" 5
      ⟨.ok (), .ok "url", "obj", .ok "b64", .error "boom", "img"⟩ = .ok r) ∧
    ((⟨"u1", 5, "error", some "img", some "boom", []⟩ : ReceiptData).status = "error" ∧
     (⟨"u1", 5, "error", some "img", some "boom", []⟩ : ReceiptData).id = "u1" ∧
     (⟨"u1", 5, "error", some "img", some "boom", []⟩ : ReceiptData).createdAt = 5 ∧
     (⟨"u1", 5, "error", some "img", some "boom", []⟩ : ReceiptData).error.isSome = true) ∧
    (∃ e, (Except.error "db" : Except String Unit) = .error e) :=
  ⟨(extraction_error_path "u1" 5
      ⟨.ok (), .ok "url", "obj", .ok "b64", .error "boom", "img"⟩ (.ok ()) rfl).1,
   ((extraction_error_path "u1" 5
      ⟨.ok (), .ok "url", "obj", .ok "b64", .error "boom", "img"⟩ (.ok ()) rfl).2
      ⟨"u1", 5, "error", some "img", some "boom", []⟩ rfl).1
      (Or.inr (Or.inl ⟨"boom", rfl⟩)),
   ((extraction_error_path "u1" 5
      ⟨.ok (), .ok "url", "obj", .ok "b64", .ok [("merchantName", "A")], "img"⟩
      (.error "db") rfl).2
      ⟨"u1", 5, "draft", some "url", none, [("merchantName", "A")]⟩ rfl).2
      (by decide)⟩

/-! ## startProcessing skeleton: theorems -/

/-- C1 counterexample: two concrete invocations falsify the claim as
stated.  A re-entrant invocation (flag already true) returns with the
flag still true and the log not ending in the queue-finished line;
and an invocation whose settings read throws (corrupt stored
settings) escapes the boundary carrying that exception, with the flag
left true and the cleared log carrying no finished line. -/
theorem start_finally_counterexample :
    ((startProcessing (.ok 10) (fun _ s => (s, false))
        ⟨[], true, ["x"], 0, 0⟩).1.isProcessing = true ∧
     (startProcessing (.ok 10) (fun _ s => (s, false))
        ⟨[], true, ["x"], 0, 0⟩).1.logs.getLast? ≠
       some "Processing queue finished.") ∧
    ((startProcessing (.error "SyntaxError: Unexpected token") (fun _ s => (s, false))
        ⟨[], false, [], 0, 0⟩).2 = some "SyntaxError: Unexpected token" ∧
     (startProcessing (.error "SyntaxError: Unexpected token") (fun _ s => (s, false))
        ⟨[], false, [], 0, 0⟩).1.isProcessing = true ∧
     (startProcessing (.error "SyntaxError: Unexpected token") (fun _ s => (s, false))
        ⟨[], false, [], 0, 0⟩).1.logs.getLast? ≠
       some "Processing queue finished.") := by
  refine ⟨⟨rfl, ?_⟩, rfl, rfl, ?_⟩ <;> decide

/-- C1 amended: for every invocation that passes the re-entrancy
guard (the active flag is false at entry) and whose settings read
returns, startProcessing returns normally (no exception escapes,
whatever the batch loop does - aborting included) and after it
returns the active flag is false and the log ends with the
queue-finished line; the settings read, which the source performs
between activation and the try, is the only post-guard escape: when
it throws, the exception leaves the operation with the flag stuck
true and the cleared log. -/
theorem start_finally_deactivates (batchSize : Nat) (m : String)
    (loop : Nat → RunState → RunState × Bool)
    (s : RunState) (h : s.isProcessing = false) :
    (startProcessing (.ok batchSize) loop s).2 = none ∧
    (startProcessing (.ok batchSize) loop s).1.isProcessing = false ∧
    (startProcessing (.ok batchSize) loop s).1.logs.getLast? =
      some "Processing queue finished." ∧
    startProcessing (.error m) loop s =
      ({ s with isProcessing := true, logs := [] }, some m) := by
  unfold startProcessing
  rw [h]
  simp

/-- Witness for the amended C1: applied to an idle state and a
batch-loop behaviour that aborts with an escaping exception, the
invocation returns normally, deactivated, with the queue-finished
line last; and the same invocation with a throwing settings read
escapes with the flag left true. -/
theorem start_finally_deactivates_witness :
    (⟨[], false, [], 0, 0⟩ : RunState).isProcessing = false ∧
    ((startProcessing (.ok 10) (fun _ s => (s, true)) ⟨[], false, [], 0, 0⟩).2 = none ∧
     (startProcessing (.ok 10) (fun _ s => (s, true))
        ⟨[], false, [], 0, 0⟩).1.isProcessing = false ∧
     (startProcessing (.ok 10) (fun _ s => (s, true))
        ⟨[], false, [], 0, 0⟩).1.logs.getLast? = some "Processing queue finished." ∧
     startProcessing (.error "boom") (fun _ s => (s, true)) ⟨[], false, [], 0, 0⟩ =
       ({ (⟨[], false, [], 0, 0⟩ : RunState) with isProcessing := true, logs := [] },
        some "boom")) :=
  ⟨rfl, start_finally_deactivates 10 "boom" (fun _ s => (s, true)) ⟨[], false, [], 0, 0⟩ rfl⟩

/-- C8: calling startProcessing while the active flag is true returns
the state unchanged and throws nothing - no queue, log, counter or
call-count mutation - for every settings-read outcome and every
batch-loop behaviour (the guard precedes the settings read and the
loop, so neither is reached and no extraction call is issued). -/
theorem start_idempotent_while_active (settingsRead : Except String Nat)
    (loop : Nat → RunState → RunState × Bool)
    (s : RunState) (h : s.isProcessing = true) :
    startProcessing settingsRead loop s = (s, none) := by
  simp [startProcessing, h]

/-- Witness for C8: a concrete active state is returned unchanged,
with no escaping exception, even under a throwing settings read. -/
theorem start_idempotent_while_active_witness :
    (⟨[⟨1, 0, Status.pending, none⟩], true, ["log"], 7, 3⟩ : RunState).isProcessing = true ∧
    startProcessing (.error "SyntaxError: Unexpected token")
        (fun _ s => ({ s with extractionCalls := s.extractionCalls + 1 }, false))
        ⟨[⟨1, 0, Status.pending, none⟩], true, ["log"], 7, 3⟩ =
      (⟨[⟨1, 0, Status.pending, none⟩], true, ["log"], 7, 3⟩, none) :=
  ⟨rfl, start_idempotent_while_active _ _ _ rfl⟩

/-! ## removeFile: theorems -/

/-- C6 counterexample: removeFile on an item currently in status
processing removes it - the queue is not left unchanged, so the
claimed no-op behaviour for non-pending items does not hold. -/
theorem removeFile_counterexample :
    removeFile [⟨7, 0, Status.processing, none⟩] 7 ≠
      [⟨7, 0, Status.processing, none⟩] ∧
    removeFile [⟨7, 0, Status.processing, none⟩] 7 = [] := by
  constructor
  · decide
  · decide

/-- C6 amended: removeFile removes every item with the given id
regardless of its status (no status check is performed); afterwards no
item with that id remains, so the terminal status write of an
in-flight task for that id is a no-op on the queue - the terminal
state is not recorded for a removed item. -/
theorem removeFile_unconditional (q : List QueueItem) (i : Nat) :
    (∀ it ∈ removeFile q i, it.id ≠ i) ∧
    (∀ st e, updateItemStatus (removeFile q i) i st e = removeFile q i) := by
  constructor
  · intro it hit
    have h := List.mem_filter.mp hit
    simpa using h.2
  · intro st e
    unfold updateItemStatus
    have hmap : List.map
        (fun it => if it.id = i then { it with status := st, error := e } else it)
        (removeFile q i) = List.map id (removeFile q i) := by
      apply List.map_congr_left
      intro a ha
      have h := List.mem_filter.mp ha
      have hne : a.id ≠ i := by simpa using h.2
      simp [hne]
    rw [hmap, List.map_id]

/-- Witness for the amended C6: after removing the in-flight item 7,
its terminal status write leaves the queue unchanged. -/
theorem removeFile_unconditional_witness :
    updateItemStatus
      (removeFile [⟨7, 0, Status.processing, none⟩, ⟨8, 0, Status.pending, none⟩] 7)
      7 Status.completed none =
    removeFile [⟨7, 0, Status.processing, none⟩, ⟨8, 0, Status.pending, none⟩] 7 :=
  (removeFile_unconditional
    [⟨7, 0, Status.processing, none⟩, ⟨8, 0, Status.pending, none⟩] 7).2
    Status.completed none

/-! ## Batch loop semantics: invariant preservation -/

/-- updateItemStatus never changes the ids of the queue. -/
theorem upd_map_id (q : List QueueItem) (i : Nat) (st : Status)
    (e : Option String) :
    (updateItemStatus q i st e).map QueueItem.id = q.map QueueItem.id := by
  unfold updateItemStatus
  rw [List.map_map]
  apply List.map_congr_left
  intro a _
  by_cases h : a.id = i <;> simp [Function.comp, h]

/-- Membership in an updated queue: every member arises from a member
of the original queue, with the same id, either rewritten (when its id
matches) or untouched. -/
theorem upd_cases {q : List QueueItem} {i : Nat} {st : Status}
    {e : Option String} {x : QueueItem}
    (hx : x ∈ updateItemStatus q i st e) :
    ∃ y ∈ q, x.id = y.id ∧
      ((y.id = i ∧ x = { y with status := st, error := e }) ∨
       (y.id ≠ i ∧ x = y)) := by
  obtain ⟨y, hy, hxy⟩ := List.mem_map.mp hx
  by_cases hid : y.id = i
  · refine ⟨y, hy, ?_, Or.inl ⟨hid, ?_⟩⟩ <;> rw [← hxy] <;> simp [hid]
  · refine ⟨y, hy, ?_, Or.inr ⟨hid, ?_⟩⟩ <;> rw [← hxy] <;> simp [hid]

/-- Every step of the batch loop semantics preserves well-formedness. -/
theorem wf_step {b : Nat} {c c' : Config} (hwf : WF b c)
    (hst : Step b c c') : WF b c' := by
  unfold WF at hwf ⊢
  obtain ⟨w1, w2, w3, w4, w5, w6, w7, w8, w9, w10, w11⟩ := hwf
  cases hst with
  | start i hi =>
    refine ⟨?_, ?_, ?_, ?_, ?_, ?_, ?_, ?_, ?_, ?_, ?_⟩
    · rw [upd_map_id]
      exact w1
    · exact w2.erase i
    · exact List.nodup_cons.mpr ⟨w4 i hi, w3⟩
    · intro j hj
      have hj' := (List.Nodup.mem_erase_iff w2).mp hj
      simp only [List.mem_cons, not_or]
      exact ⟨hj'.1, w4 j hj'.2⟩
    · have e1 := List.length_erase_add_one hi
      simp only [List.length_cons]
      omega
    · intro x hx hstx
      obtain ⟨y, hy, hxid, hc⟩ := upd_cases hx
      rcases hc with ⟨hid, hxy⟩ | ⟨hid, hxy⟩
      · rw [hxid, hid]
        exact List.mem_cons_self _ _
      · rw [hxy] at hstx
        rw [hxid]
        exact List.mem_cons_of_mem i (w6 y hy hstx)
    · intro x hx hmem
      obtain ⟨y, hy, hxid, hc⟩ := upd_cases hx
      have hne : x.id ≠ i := ((List.Nodup.mem_erase_iff w2).mp hmem).1
      rcases hc with ⟨hid, hxy⟩ | ⟨hid, hxy⟩
      · exact absurd (hxid.trans hid) hne
      · rw [hxy]
        refine w7 y hy ?_
        rw [← hxid]
        exact List.mem_of_mem_erase hmem
    · intro x hx hmem
      obtain ⟨y, hy, hxid, hc⟩ := upd_cases hx
      rcases hc with ⟨hid, hxy⟩ | ⟨hid, hxy⟩
      · rw [hxy]
      · rcases List.mem_cons.mp hmem with heq | hmem'
        · exact absurd (hxid.symm.trans heq) hid
        · rw [hxy]
          exact w8 y hy (hxid ▸ hmem')
    · intro j hj
      exact w9 j (List.mem_of_mem_erase hj)
    · intro j hj
      rcases List.mem_cons.mp hj with heq | hj'
      · rw [heq]
        exact w9 i hi
      · exact w10 j hj'
    · intro x hx
      obtain ⟨y, hy, hxid, _⟩ := upd_cases hx
      rw [hxid]
      exact w11 y hy
  | finish i st e hi hterm =>
    refine ⟨?_, ?_, ?_, ?_, ?_, ?_, ?_, ?_, ?_, ?_, ?_⟩
    · rw [upd_map_id]
      exact w1
    · exact w2
    · exact w3.erase i
    · intro j hj hcon
      exact w4 j hj (List.mem_of_mem_erase hcon)
    · have e1 := List.length_erase_add_one hi
      show c.toStart.length + (c.inflight.erase i).length ≤ b
      omega
    · intro x hx hstx
      obtain ⟨y, hy, hxid, hc⟩ := upd_cases hx
      rcases hc with ⟨hid, hxy⟩ | ⟨hid, hxy⟩
      · rw [hxy] at hstx
        have hs : st = Status.processing := by simpa using hstx
        rcases hterm with h | h <;> rw [h] at hs <;> simp at hs
      · rw [hxy] at hstx
        rw [hxid]
        exact (List.Nodup.mem_erase_iff w3).mpr ⟨hid, w6 y hy hstx⟩
    · intro x hx hmem
      obtain ⟨y, hy, hxid, hc⟩ := upd_cases hx
      rcases hc with ⟨hid, hxy⟩ | ⟨hid, hxy⟩
      · exfalso
        rw [hxid, hid] at hmem
        exact w4 i hmem hi
      · rw [hxy]
        exact w7 y hy (hxid ▸ hmem)
    · intro x hx hmem
      obtain ⟨y, hy, hxid, hc⟩ := upd_cases hx
      rcases hc with ⟨hid, hxy⟩ | ⟨hid, hxy⟩
      · exfalso
        rw [hxid, hid] at hmem
        exact ((List.Nodup.mem_erase_iff w3).mp hmem).1 rfl
      · rw [hxy]
        exact w8 y hy (List.mem_of_mem_erase (hxid ▸ hmem))
    · exact w9
    · intro j hj
      exact w10 j (List.mem_of_mem_erase hj)
    · intro x hx
      obtain ⟨y, hy, hxid, _⟩ := upd_cases hx
      rw [hxid]
      exact w11 y hy
  | add newItems hp hn hf =>
    refine ⟨?_, ?_, ?_, ?_, ?_, ?_, ?_, ?_, ?_, ?_, ?_⟩
    · simp only [addFiles, List.map_append]
      refine w1.append hn ?_
      intro a ha hb
      obtain ⟨y, hy, rfl⟩ := List.mem_map.mp ha
      obtain ⟨z, hz, hza⟩ := List.mem_map.mp hb
      exact hf z hz (hza ▸ w11 y hy)
    · exact w2
    · exact w3
    · exact w4
    · exact w5
    · intro x hx hstx
      simp only [addFiles] at hx
      rcases List.mem_append.mp hx with h | h
      · exact w6 x h hstx
      · rw [hp x h] at hstx
        exact absurd hstx (by decide)
    · intro x hx hmem
      simp only [addFiles] at hx
      rcases List.mem_append.mp hx with h | h
      · exact w7 x h hmem
      · exact hp x h
    · intro x hx hmem
      simp only [addFiles] at hx
      rcases List.mem_append.mp hx with h | h
      · exact w8 x h hmem
      · exact absurd (w10 x.id hmem) (hf x h)
    · intro j hj
      exact List.mem_append_left _ (w9 j hj)
    · intro j hj
      exact List.mem_append_left _ (w10 j hj)
    · intro x hx
      simp only [addFiles] at hx
      rcases List.mem_append.mp hx with h | h
      · exact List.mem_append_left _ (w11 x h)
      · exact List.mem_append_right _ (List.mem_map.mpr ⟨x, h, rfl⟩)
  | remove i =>
    refine ⟨?_, ?_, ?_, ?_, ?_, ?_, ?_, ?_, ?_, ?_, ?_⟩
    · exact ((List.filter_sublist c.queue).map QueueItem.id).nodup w1
    · exact w2
    · exact w3
    · exact w4
    · exact w5
    · intro x hx hstx
      simp only [removeFile] at hx
      exact w6 x (List.mem_of_mem_filter hx) hstx
    · intro x hx hmem
      simp only [removeFile] at hx
      exact w7 x (List.mem_of_mem_filter hx) hmem
    · intro x hx hmem
      simp only [removeFile] at hx
      exact w8 x (List.mem_of_mem_filter hx) hmem
    · exact w9
    · exact w10
    · intro x hx
      simp only [removeFile] at hx
      exact w11 x (List.mem_of_mem_filter hx)
  | newRound h1 h2 =>
    refine ⟨?_, ?_, ?_, ?_, ?_, ?_, ?_, ?_, ?_, ?_, ?_⟩
    · exact w1
    · have hsub : List.Sublist ((pendingOf c.queue).take b) c.queue :=
        ((pendingOf c.queue).take_sublist b).trans (List.filter_sublist c.queue)
      exact (hsub.map QueueItem.id).nodup w1
    · exact List.nodup_nil
    · intro j hj
      simp
    · simp only [sliceIds, List.length_map, List.length_nil, Nat.add_zero]
      exact List.length_take_le _ _
    · intro x hx hstx
      have hin := w6 x hx hstx
      rw [h2] at hin
      simp at hin
    · intro x hx hmem
      obtain ⟨y, hyt, hyid⟩ := List.mem_map.mp hmem
      have hyp := List.mem_of_mem_take hyt
      have hyq := List.mem_filter.mp hyp
      have hxy : y = x := List.inj_on_of_nodup_map w1 hyq.1 hx hyid
      rw [← hxy]
      simpa using hyq.2
    · intro x hx hmem
      simp at hmem
    · intro j hj
      obtain ⟨y, hyt, hyid⟩ := List.mem_map.mp hj
      have hyq := List.mem_filter.mp (List.mem_of_mem_take hyt)
      exact hyid ▸ w11 y hyq.1
    · intro j hj
      simp at hj
    · exact w11

/-- Well-formedness is preserved along any reachable execution. -/
theorem wf_reach {b : Nat} {c c' : Config} (hwf : WF b c)
    (hr : Reach b c c') : WF b c' := by
  induction hr with
  | refl => exact hwf
  | tail _ hstep ih => exact wf_step ih hstep

/-- In a well-formed configuration, at most batchSize items are
simultaneously in status processing. -/
theorem processingCount_le_of_wf {b : Nat} {c : Config} (hwf : WF b c) :
    processingCount c.queue ≤ b := by
  obtain ⟨w1, w2, w3, w4, w5, w6, w7, w8, w9, w10, w11⟩ := hwf
  have hsub : ((c.queue.filter fun it => it.status = Status.processing).map
      QueueItem.id) ⊆ c.inflight := by
    intro a ha
    obtain ⟨y, hy, rfl⟩ := List.mem_map.mp ha
    have hy' := List.mem_filter.mp hy
    exact w6 y hy'.1 (by simpa using hy'.2)
  have hnd : ((c.queue.filter fun it => it.status = Status.processing).map
      QueueItem.id).Nodup :=
    ((List.filter_sublist c.queue).map QueueItem.id).nodup w1
  have hlen := (hnd.subperm hsub).length_le
  simp only [List.length_map] at hlen
  calc processingCount c.queue
      = (c.queue.filter fun it => it.status = Status.processing).length := rfl
    _ ≤ c.inflight.length := hlen
    _ ≤ b := le_trans (Nat.le_add_left _ _) w5

/-- C2: starting from a well-formed configuration (in particular a
queue with no processing items and an idle slice), every configuration
reachable in the batch loop semantics - slices drawn as the first
BATCH_SIZE pending items, members dispatched and settling in any
interleaving, the next slice only after the previous one fully
settles, callers adding and removing items at any time - has at most
the configured concurrency limit (when positive) of items
simultaneously in status processing. -/
theorem slice_concurrency_bound (n : Nat) (c c' : Config) (hn : 0 < n)
    (hwf : WF (batchSizeOf n) c) (hr : Reach (batchSizeOf n) c c') :
    processingCount c'.queue ≤ n := by
  have hb : batchSizeOf n = n := by
    unfold batchSizeOf
    rw [if_neg (Nat.pos_iff_ne_zero.mp hn)]
  have h := processingCount_le_of_wf (wf_reach hwf hr)
  rwa [hb] at h

/-- Witness for C2: a two-item pending queue with configured limit 1,
after opening a round and starting the first slice member, has exactly
one processing item, within the bound. -/
theorem slice_concurrency_bound_witness :
    0 < 1 ∧
    WF (batchSizeOf 1)
      ⟨[⟨1, 0, Status.pending, none⟩, ⟨2, 0, Status.pending, none⟩], [], [], [1, 2]⟩ ∧
    processingCount
      (updateItemStatus [⟨1, 0, Status.pending, none⟩, ⟨2, 0, Status.pending, none⟩]
        1 Status.processing none) ≤ 1 := by
  refine ⟨Nat.one_pos, by decide, ?_⟩
  have h := slice_concurrency_bound 1
    ⟨[⟨1, 0, Status.pending, none⟩, ⟨2, 0, Status.pending, none⟩], [], [], [1, 2]⟩
    ⟨updateItemStatus [⟨1, 0, Status.pending, none⟩, ⟨2, 0, Status.pending, none⟩]
        1 Status.processing none,
      (sliceIds [⟨1, 0, Status.pending, none⟩, ⟨2, 0, Status.pending, none⟩]
        (batchSizeOf 1)).erase 1,
      1 :: ([] : List Nat), [1, 2]⟩
    Nat.one_pos (by decide)
    (Relation.ReflTransGen.tail
      (Relation.ReflTransGen.single (Step.newRound _ rfl rfl))
      (Step.start _ 1 (by decide)))
  exact h

/-- One step of the batch loop never alters a terminal item: its id is
never selected into a slice (the pending re-read excludes it), it is
never in flight, and freshly added items carry never-seen ids. -/
theorem terminal_frozen_step {b : Nat} {c c' : Config} (hst : Step b c c')
    (hwf : WF b c) (it : QueueItem)
    (hterm : it.status = Status.completed ∨ it.status = Status.error)
    (hP : ∀ x ∈ c.queue, x.id = it.id → x = it) (hU : it.id ∈ c.used) :
    (∀ x ∈ c'.queue, x.id = it.id → x = it) ∧ it.id ∈ c'.used := by
  unfold WF at hwf
  obtain ⟨w1, w2, w3, w4, w5, w6, w7, w8, w9, w10, w11⟩ := hwf
  cases hst with
  | start i hi =>
    refine ⟨?_, hU⟩
    intro x hx hxid
    obtain ⟨y, hy, hyid, hc⟩ := upd_cases hx
    rcases hc with ⟨hid, hxy⟩ | ⟨hid, hxy⟩
    · exfalso
      have hyit : y = it := hP y hy (by rw [← hyid, hxid])
      have hpend := w7 y hy (hid ▸ hi)
      rw [hyit] at hpend
      rcases hterm with h | h <;> rw [h] at hpend <;> simp at hpend
    · rw [hxy]
      exact hP y hy (by rw [← hyid, hxid])
  | finish i st e hi hterm' =>
    refine ⟨?_, hU⟩
    intro x hx hxid
    obtain ⟨y, hy, hyid, hc⟩ := upd_cases hx
    rcases hc with ⟨hid, hxy⟩ | ⟨hid, hxy⟩
    · exfalso
      have hyit : y = it := hP y hy (by rw [← hyid, hxid])
      have hproc := w8 y hy (hid ▸ hi)
      rw [hyit] at hproc
      rcases hterm with h | h <;> rw [h] at hproc <;> simp at hproc
    · rw [hxy]
      exact hP y hy (by rw [← hyid, hxid])
  | add newItems hp hn hf =>
    refine ⟨?_, List.mem_append_left _ hU⟩
    intro x hx hxid
    simp only [addFiles] at hx
    rcases List.mem_append.mp hx with h | h
    · exact hP x h hxid
    · exact absurd (hxid ▸ hU) (hf x h)
  | remove i =>
    refine ⟨?_, hU⟩
    intro x hx hxid
    simp only [removeFile] at hx
    exact hP x (List.mem_of_mem_filter hx) hxid
  | newRound h1 h2 =>
    exact ⟨hP, hU⟩

/-- C5: once an item is terminal (completed or error), no subsequent
action of the batch loop semantics - of the same round, a later round,
or a later run - changes its status or its error field: the pending
re-read selects only pending items, so a terminal item is never
re-dispatched or re-transitioned (it can only disappear entirely via a
caller removal). -/
theorem terminal_stability (b : Nat) (c c' : Config) (it x : QueueItem)
    (hwf : WF b c) (hr : Reach b c c') (hit : it ∈ c.queue)
    (hterm : it.status = Status.completed ∨ it.status = Status.error)
    (hx : x ∈ c'.queue) (hid : x.id = it.id) :
    x.status = it.status ∧ x.error = it.error := by
  have key : WF b c' ∧ (∀ y ∈ c'.queue, y.id = it.id → y = it) ∧ it.id ∈ c'.used := by
    clear hx hid
    induction hr with
    | refl =>
      obtain ⟨w1, w2, w3, w4, w5, w6, w7, w8, w9, w10, w11⟩ := hwf
      refine ⟨⟨w1, w2, w3, w4, w5, w6, w7, w8, w9, w10, w11⟩, ?_, w11 it hit⟩
      intro y hy hyid
      exact List.inj_on_of_nodup_map w1 hy hit hyid
    | tail _ hstep ih =>
      obtain ⟨hw, hp, hu⟩ := ih
      have h := terminal_frozen_step hstep hw it hterm hp hu
      exact ⟨wf_step hw hstep, h.1, h.2⟩
  have hxit := key.2.1 x hx hid
  rw [hxit]
  exact ⟨rfl, rfl⟩

/-- Witness for C5: a completed item persists unchanged across a
caller removal of a different (pending) item. -/
theorem terminal_stability_witness :
    WF 10 ⟨[⟨1, 0, Status.completed, none⟩, ⟨2, 0, Status.pending, none⟩], [], [], [1, 2]⟩ ∧
    ((⟨1, 0, Status.completed, none⟩ : QueueItem).status = Status.completed ∧
     (⟨1, 0, Status.completed, none⟩ : QueueItem).error = (none : Option String)) := by
  refine ⟨by decide, ?_⟩
  refine terminal_stability 10
    ⟨[⟨1, 0, Status.completed, none⟩, ⟨2, 0, Status.pending, none⟩], [], [], [1, 2]⟩
    ⟨removeFile [⟨1, 0, Status.completed, none⟩, ⟨2, 0, Status.pending, none⟩] 2,
     [], [], [1, 2]⟩
    ⟨1, 0, Status.completed, none⟩ ⟨1, 0, Status.completed, none⟩
    (by decide) ?_ (by decide) (Or.inl rfl) (by decide) rfl
  exact Relation.ReflTransGen.single (Step.remove _ 2)

end ReceiptAI
